import Mathlib

/-!
Verification development for the gadgetku e-commerce data model
(`src/app/models.py`) and its order-lifecycle / inventory core.

Conventions of the embedding:
* `Decimal` fields with `decimal_places=2` are modelled as `Int` counts of
  cents (`decimal_places=3` as thousandths); the schema bound `ge=0` becomes
  an explicit invariant.
* `datetime` fields are modelled as `Nat` timestamps supplied by the caller
  (the spec's injected clock collaborator).
* `Dict[str, Any]` JSON columns are modelled as association lists of strings.
* Python `Optional[int]` primary keys are modelled as `Nat` ids assigned by
  the storage layer.
* The repository under `src/` contains only the declarative schemas; the
  Order Engine and Cart Store operations are modelled from the spec, as
  marked on each such definition.
-/

namespace Gadgetku

/-- Order status enum, from `OrderStatus` in src/app/models.py. -/
inductive OrderStatus where
  | pending | confirmed | processing | shipped | delivered | cancelled
deriving DecidableEq, Repr, Fintype

/-- Payment method enum, from `PaymentMethod` in src/app/models.py. -/
inductive PaymentMethod where
  | bank_transfer | e_wallet | cod
deriving DecidableEq, Repr

/-- Payment status enum, from `PaymentStatus` in src/app/models.py. -/
inductive PaymentStatus where
  | pending | paid | failed | refunded
deriving DecidableEq, Repr

/-- Persistent product row, from `Product` in src/app/models.py.
`price`, `original_price` are cents; `weight` is thousandths of a kg;
`rating` is hundredths (schema bound 0..5). -/
structure Product where
  id : Nat
  name : String
  description : String
  price : Int
  original_price : Option Int
  stock_quantity : Int
  brand : Option String
  model : Option String
  sku : String
  weight : Option Int
  dimensions : Option (List (String × Int))
  specifications : List (String × String)
  images : List String
  rating : Option Int
  review_count : Int
  is_featured : Bool
  is_active : Bool
  category_id : Nat
  created_at : Nat
  updated_at : Nat
deriving DecidableEq, Repr

/-- Persistent address row, from `Address` in src/app/models.py. -/
structure Address where
  id : Nat
  user_id : Nat
  label : String
  recipient_name : String
  phone : String
  address_line_1 : String
  address_line_2 : Option String
  city : String
  province : String
  postal_code : String
  is_default : Bool
  created_at : Nat
  updated_at : Nat
deriving DecidableEq, Repr

/-- Persistent cart row, from `CartItem` in src/app/models.py
(schema bound: `quantity` has `ge=1`). -/
structure CartItem where
  id : Nat
  user_id : Nat
  product_id : Nat
  quantity : Int
  created_at : Nat
  updated_at : Nat
deriving DecidableEq, Repr

/-- Persistent order row, from `Order` in src/app/models.py.
All amount fields are cents with schema bound `ge=0`. -/
structure Order where
  id : Nat
  order_number : String
  user_id : Nat
  status : OrderStatus
  subtotal : Int
  shipping_cost : Int
  tax_amount : Int
  discount_amount : Int
  total_amount : Int
  payment_method : PaymentMethod
  payment_status : PaymentStatus
  shipping_address_id : Nat
  notes : Option String
  tracking_number : Option String
  shipped_at : Option Nat
  delivered_at : Option Nat
  created_at : Nat
  updated_at : Nat
deriving DecidableEq, Repr

/-- Persistent order line row, from `OrderItem` in src/app/models.py
(schema bounds: `quantity` `ge=1`, `unit_price`/`total_price` `ge=0`). -/
structure OrderItem where
  id : Nat
  order_id : Nat
  product_id : Nat
  quantity : Int
  unit_price : Int
  total_price : Int
  product_snapshot : List (String × String)
deriving DecidableEq, Repr

/-- Creation schema, from `ProductCreate` in src/app/models.py
(schema bounds: `price`, `original_price`, `stock_quantity`, `weight`
all `ge=0`). -/
structure ProductCreate where
  name : String
  description : String
  price : Int
  original_price : Option Int
  stock_quantity : Int
  brand : Option String
  model : Option String
  sku : String
  weight : Option Int
  dimensions : Option (List (String × Int))
  specifications : List (String × String)
  images : List String
  is_featured : Bool
  category_id : Nat
deriving DecidableEq, Repr

/-- Update schema, from `ProductUpdate` in src/app/models.py: every field
is optional (a `none` means "leave unchanged") and the schema exposes no
`sku` field at all. -/
structure ProductUpdate where
  name : Option String
  description : Option String
  price : Option Int
  original_price : Option Int
  stock_quantity : Option Int
  brand : Option String
  model : Option String
  weight : Option Int
  dimensions : Option (List (String × Int))
  specifications : Option (List (String × String))
  images : Option (List String)
  is_featured : Option Bool
  is_active : Option Bool
  category_id : Option Nat
deriving DecidableEq, Repr

/-- The persistent state touched by the order-lifecycle core: product,
address, cart, order and order-item tables. -/
structure DB where
  products : List Product
  addresses : List Address
  cart_items : List CartItem
  orders : List Order
  order_items : List OrderItem
deriving DecidableEq, Repr

/-- Look up a product row by primary key. -/
def findProduct (db : DB) (pid : Nat) : Option Product :=
  db.products.find? (fun p => p.id == pid)

/-- Look up an order row by primary key. -/
def findOrder (db : DB) (oid : Nat) : Option Order :=
  db.orders.find? (fun o => o.id == oid)

/-- The cart lines of one user. -/
def userCartLines (db : DB) (uid : Nat) : List CartItem :=
  db.cart_items.filter (fun c => c.user_id == uid)

/-- The order lines of one order. -/
def orderLines (db : DB) (oid : Nat) : List OrderItem :=
  db.order_items.filter (fun i => i.order_id == oid)

/-- Does address `aid` exist and belong to user `uid`? -/
def hasUserAddress (db : DB) (uid aid : Nat) : Bool :=
  db.addresses.any (fun a => a.id == aid && a.user_id == uid)

/-- Add `q` (possibly negative) to the stock of the product with id `pid`. -/
def addStock (ps : List Product) (pid : Nat) (q : Int) : List Product :=
  ps.map (fun p =>
    if p.id == pid then { p with stock_quantity := p.stock_quantity + q } else p)

/-- Total quantity requested of product `pid` across a list of cart lines. -/
def lineQty (lines : List CartItem) (pid : Nat) : Int :=
  ((lines.filter (fun c => c.product_id == pid)).map (fun c => c.quantity)).sum

/-- Total quantity held by order lines for product `pid`. -/
def restockQty (items : List OrderItem) (pid : Nat) : Int :=
  ((items.filter (fun i => i.product_id == pid)).map (fun i => i.quantity)).sum

/-- Errors of `checkout`, from the spec (§4.1 and the §7 taxonomy). -/
inductive CheckoutError where
  | EmptyCart
  | InvalidAddress
  | OutOfStock (product_id : Nat) (requested available : Int)
  | InactiveProduct (product_id : Nat)
  | ProductNotFound (product_id : Nat)
deriving DecidableEq, Repr

/-- Modelled from the spec: the frozen `product_snapshot` an OrderItem
carries (name, sku, price, image at purchase time); the source stores it as
a JSON `Dict[str, Any]` on `OrderItem`. -/
def productSnapshot (p : Product) : List (String × String) :=
  [("name", p.name), ("sku", p.sku), ("price", toString p.price),
   ("image", p.images.headD "")]

/-- Modelled from the spec: the per-line body of `checkout` (not present in
src/, which only declares the schemas). Each cart line locks/reads its
product, fails the whole operation on a missing, inactive or understocked
product, and otherwise decrements stock, accumulates the subtotal and emits
a frozen `OrderItem` for order `oid`. -/
def processLines (oid : Nat) :
    List Product → List CartItem →
    Except CheckoutError (List Product × List OrderItem × Int)
  | ps, [] => .ok (ps, [], 0)
  | ps, c :: rest =>
    match ps.find? (fun p => p.id == c.product_id) with
    | none => .error (.ProductNotFound c.product_id)
    | some p =>
      if p.is_active = false then .error (.InactiveProduct c.product_id)
      else if p.stock_quantity < c.quantity then
        .error (.OutOfStock c.product_id c.quantity p.stock_quantity)
      else
        match processLines oid (addStock ps c.product_id (-c.quantity)) rest with
        | .error e => .error e
        | .ok (ps2, items, sub) =>
          .ok (ps2,
            { id := 0, order_id := oid, product_id := c.product_id,
              quantity := c.quantity, unit_price := p.price,
              total_price := p.price * c.quantity,
              product_snapshot := productSnapshot p } :: items,
            p.price * c.quantity + sub)

/-- Modelled from the spec: `checkout(user, shipping_address_id,
payment_method, notes) → Order` (§4.1), absent from src/. Shipping, tax and
discount amounts come from the injected rate functions and promotion
evaluator; `order_number` from the unique number generator; `now` from the
injected clock. On success it decrements stock per line, creates the Order
and its OrderItems and clears the user's cart, all in one step. -/
def checkout (db : DB) (uid aid : Nat) (pm : PaymentMethod)
    (notes : Option String) (shipping_cost tax_amount discount_amount : Int)
    (order_number : String) (now : Nat) :
    Except CheckoutError (DB × Order) :=
  let lines := userCartLines db uid
  if lines.isEmpty then .error .EmptyCart
  else if hasUserAddress db uid aid = false then .error .InvalidAddress
  else
    let oid := db.orders.length
    match processLines oid db.products lines with
    | .error e => .error e
    | .ok (ps2, items, subtotal) =>
      let o : Order :=
        { id := oid, order_number := order_number, user_id := uid,
          status := .pending, subtotal := subtotal,
          shipping_cost := shipping_cost, tax_amount := tax_amount,
          discount_amount := discount_amount,
          total_amount := subtotal + shipping_cost + tax_amount - discount_amount,
          payment_method := pm, payment_status := .pending,
          shipping_address_id := aid, notes := notes,
          tracking_number := none, shipped_at := none, delivered_at := none,
          created_at := now, updated_at := now }
      .ok ({ db with
              products := ps2,
              cart_items := db.cart_items.filter (fun c => c.user_id != uid),
              orders := db.orders ++ [o],
              order_items := db.order_items ++ items }, o)

/-- Modelled from the spec: checkout as a state transformer; on any error
every side effect is rolled back, so the returned state is the input state
(§4.1 postconditions, §7 propagation). -/
def checkoutRun (db : DB) (uid aid : Nat) (pm : PaymentMethod)
    (notes : Option String) (shipping_cost tax_amount discount_amount : Int)
    (order_number : String) (now : Nat) :
    DB × Except CheckoutError Order :=
  match checkout db uid aid pm notes shipping_cost tax_amount discount_amount
      order_number now with
  | .error e => (db, .error e)
  | .ok (db2, o) => (db2, .ok o)

/-- Errors of `transition_status` and `update_payment_status`, from the
spec (§4.1, §7). -/
inductive TransitionError where
  | IllegalTransition (src dst : OrderStatus)
  | OrderNotFound (order_id : Nat)
deriving DecidableEq, Repr

/-- Modelled from the spec: the legal-edge table of the order status state
machine (§4.1 `transition_status`), absent from src/. -/
def allowedTransition : OrderStatus → OrderStatus → Bool
  | .pending, .confirmed => true
  | .confirmed, .processing => true
  | .processing, .shipped => true
  | .shipped, .delivered => true
  | .pending, .cancelled => true
  | .confirmed, .cancelled => true
  | .processing, .cancelled => true
  | _, _ => false

/-- Modelled from the spec: the in-place field changes a legal transition
makes to an order row — the new status, `shipped_at` / `delivered_at`
stamped when first entering those states, and `updated_at`. -/
def applyStatus (o : Order) (dst : OrderStatus) (now : Nat) : Order :=
  { o with
    status := dst,
    shipped_at :=
      if dst == .shipped && o.shipped_at == none then some now else o.shipped_at,
    delivered_at :=
      if dst == .delivered && o.delivered_at == none then some now
      else o.delivered_at,
    updated_at := now }

/-- Modelled from the spec: restore stock for every order line (the
reversal performed when an order enters `cancelled`). -/
def restock (ps : List Product) : List OrderItem → List Product
  | [] => ps
  | i :: rest => restock (addStock ps i.product_id i.quantity) rest

/-- Modelled from the spec: `transition_status(order, new_status) → Order`
(§4.1), absent from src/. Illegal edges fail with `IllegalTransition`;
entering `cancelled` from confirmed/processing restores stock for every
order line atomically with the status change. -/
def transition_status (db : DB) (oid : Nat) (dst : OrderStatus) (now : Nat) :
    Except TransitionError DB :=
  match findOrder db oid with
  | none => .error (.OrderNotFound oid)
  | some o =>
    if allowedTransition o.status dst = false then
      .error (.IllegalTransition o.status dst)
    else
      let ps2 :=
        if dst == .cancelled &&
            (o.status == .confirmed || o.status == .processing) then
          restock db.products (orderLines db oid)
        else db.products
      .ok { db with
            products := ps2,
            orders := db.orders.map (fun x =>
              if x.id == oid then applyStatus x dst now else x) }

/-- Modelled from the spec: `update_payment_status(order, new_status)`
(§4.1), absent from src/ — independent of order status, no transition
graph enforced. -/
def update_payment_status (db : DB) (oid : Nat) (ps : PaymentStatus)
    (now : Nat) : Except TransitionError DB :=
  match findOrder db oid with
  | none => .error (.OrderNotFound oid)
  | some _ =>
    .ok { db with
          orders := db.orders.map (fun x =>
            if x.id == oid then
              { x with payment_status := ps, updated_at := now }
            else x) }

/-- Errors of the Cart Store operations, from the spec (§4.2). -/
inductive CartError where
  | ProductNotFound (product_id : Nat)
  | ProductInactive (product_id : Nat)
deriving DecidableEq, Repr

/-- Modelled from the spec: `add_or_update(user, product_id, quantity)`
(§4.2), absent from src/ — an upsert keyed on (user, product): an existing
line has the quantity added to it (the additive reading the spec flags),
otherwise one new line is inserted. No stock check here by design. -/
def add_or_update (db : DB) (uid pid : Nat) (q : Int) (now : Nat) :
    Except CartError DB :=
  match findProduct db pid with
  | none => .error (.ProductNotFound pid)
  | some p =>
    if p.is_active = false then .error (.ProductInactive pid)
    else
      match db.cart_items.find?
          (fun c => c.user_id == uid && c.product_id == pid) with
      | some _ =>
        .ok { db with
              cart_items := db.cart_items.map (fun c =>
                if c.user_id == uid && c.product_id == pid then
                  { c with quantity := c.quantity + q, updated_at := now }
                else c) }
      | none =>
        .ok { db with
              cart_items := db.cart_items ++
                [{ id := db.cart_items.length, user_id := uid,
                   product_id := pid, quantity := q,
                   created_at := now, updated_at := now }] }

/-- Modelled from the spec: cart `remove` (§4.2) — plain deletion of one
(user, product) line. -/
def removeCartItem (db : DB) (uid pid : Nat) : DB :=
  { db with
    cart_items := db.cart_items.filter (fun c =>
      !(c.user_id == uid && c.product_id == pid)) }

/-- Modelled from the spec: cart `clear` (§4.2) — delete all of one user's
lines. -/
def clearCart (db : DB) (uid : Nat) : DB :=
  { db with
    cart_items := db.cart_items.filter (fun c => c.user_id != uid) }

/-- Validation of `ProductCreate`, from its schema bounds in
src/app/models.py: `price`, `original_price`, `stock_quantity` and
`weight` all carry `ge=0`. -/
def validProductCreate (c : ProductCreate) : Bool :=
  decide (0 ≤ c.price) &&
  (match c.original_price with | none => true | some v => decide (0 ≤ v)) &&
  decide (0 ≤ c.stock_quantity) &&
  (match c.weight with | none => true | some v => decide (0 ≤ v))

/-- Validation of `ProductUpdate`, from its schema bounds in
src/app/models.py: provided `price`, `original_price`, `stock_quantity`
and `weight` values must be `ge=0`. -/
def validProductUpdate (u : ProductUpdate) : Bool :=
  (match u.price with | none => true | some v => decide (0 ≤ v)) &&
  (match u.original_price with | none => true | some v => decide (0 ≤ v)) &&
  (match u.stock_quantity with | none => true | some v => decide (0 ≤ v)) &&
  (match u.weight with | none => true | some v => decide (0 ≤ v))

/-- A primary key strictly above every existing product id. -/
def nextProductId (db : DB) : Nat :=
  (db.products.map (fun p => p.id)).foldr max 0 + 1

/-- Build the product row a validated `ProductCreate` produces, per the
field-for-field correspondence of the two schemas in src/app/models.py
(`rating` starts absent, `review_count` 0, `is_active` true). -/
def productOfCreate (c : ProductCreate) (pid : Nat) (now : Nat) : Product :=
  { id := pid, name := c.name, description := c.description,
    price := c.price, original_price := c.original_price,
    stock_quantity := c.stock_quantity, brand := c.brand, model := c.model,
    sku := c.sku, weight := c.weight, dimensions := c.dimensions,
    specifications := c.specifications, images := c.images,
    rating := none, review_count := 0, is_featured := c.is_featured,
    is_active := true, category_id := c.category_id,
    created_at := now, updated_at := now }

/-- Catalog validation error, from the spec's §7 taxonomy. -/
inductive CatalogError where
  | ValidationFailed
  | ProductNotFound (product_id : Nat)
deriving DecidableEq, Repr

/-- Modelled from the spec: catalog `create` (§4.3) — boundary validation
per the `ProductCreate` schema, then a plain insert with a fresh id. -/
def createProduct (db : DB) (c : ProductCreate) (now : Nat) :
    Except CatalogError DB :=
  if validProductCreate c = false then .error .ValidationFailed
  else
    .ok { db with
          products := db.products ++ [productOfCreate c (nextProductId db) now] }

/-- Apply a `ProductUpdate` to a product row: each provided field replaces
the stored one, absent fields leave it unchanged; the schema has no `sku`
field, so `sku` (and `id`, `rating`, `review_count`, timestamps of
creation) cannot be touched. -/
def applyProductUpdate (p : Product) (u : ProductUpdate) (now : Nat) :
    Product :=
  { p with
    name := u.name.getD p.name,
    description := u.description.getD p.description,
    price := u.price.getD p.price,
    original_price :=
      match u.original_price with | none => p.original_price | some v => some v,
    stock_quantity := u.stock_quantity.getD p.stock_quantity,
    brand := match u.brand with | none => p.brand | some v => some v,
    model := match u.model with | none => p.model | some v => some v,
    weight := match u.weight with | none => p.weight | some v => some v,
    dimensions :=
      match u.dimensions with | none => p.dimensions | some v => some v,
    specifications := u.specifications.getD p.specifications,
    images := u.images.getD p.images,
    is_featured := u.is_featured.getD p.is_featured,
    is_active := u.is_active.getD p.is_active,
    category_id := u.category_id.getD p.category_id,
    updated_at := now }

/-- Modelled from the spec: catalog `update` (§4.3) — boundary validation
per the `ProductUpdate` schema, then an in-place update of the addressed
row. -/
def updateProduct (db : DB) (pid : Nat) (u : ProductUpdate) (now : Nat) :
    Except CatalogError DB :=
  if validProductUpdate u = false then .error .ValidationFailed
  else
    match findProduct db pid with
    | none => .error (.ProductNotFound pid)
    | some _ =>
      .ok { db with
            products := db.products.map (fun p =>
              if p.id == pid then applyProductUpdate p u now else p) }

/-- Products keep non-negative stock and a present, non-negative price
(the `ge=0` schema bounds on `Product` in src/app/models.py). -/
def productInv (db : DB) : Prop :=
  ∀ p ∈ db.products, 0 ≤ p.stock_quantity ∧ 0 ≤ p.price

/-- Product primary keys are pairwise distinct (`id` is the table's
primary key). -/
def productIdsUnique (db : DB) : Prop :=
  db.products.Pairwise (fun a b => a.id ≠ b.id)

/-- Cart quantities respect the `ge=1` bound of `CartItem`. -/
def cartQtyInv (db : DB) : Prop :=
  ∀ c ∈ db.cart_items, 1 ≤ c.quantity

/-- Order-line quantities respect the `ge=1` bound of `OrderItem`. -/
def orderItemQtyInv (db : DB) : Prop :=
  ∀ i ∈ db.order_items, 1 ≤ i.quantity

/-- The well-formedness invariant the schema promises of stored rows. -/
def DBInv (db : DB) : Prop :=
  productInv db ∧ productIdsUnique db ∧ cartQtyInv db ∧ orderItemQtyInv db

/-- Every stored order satisfies the monetary identity
`total_amount = subtotal + shipping_cost + tax_amount − discount_amount`. -/
def ordersAmountInv (db : DB) : Prop :=
  ∀ o ∈ db.orders,
    o.total_amount = o.subtotal + o.shipping_cost + o.tax_amount - o.discount_amount

/-- At most one cart line per (user, product) key. -/
def cartKeyUnique (db : DB) : Prop :=
  db.cart_items.Pairwise (fun a b =>
    ¬(a.user_id = b.user_id ∧ a.product_id = b.product_id))

/-! Concrete data: the spec's worked example (§8) and small states used to
instantiate the general theorems. -/

/-- The §8 example product: price 100.00 (10000 cents), stock 5. -/
def exProduct : Product :=
  { id := 1, name := "Phone", description := "A phone", price := 10000,
    original_price := none, stock_quantity := 5, brand := none, model := none,
    sku := "SKU-1", weight := none, dimensions := none, specifications := [],
    images := [], rating := none, review_count := 0, is_featured := false,
    is_active := true, category_id := 1, created_at := 0, updated_at := 0 }

/-- A shipping address belonging to user 1. -/
def exAddress : Address :=
  { id := 1, user_id := 1, label := "Home", recipient_name := "B",
    phone := "0", address_line_1 := "St", address_line_2 := none,
    city := "C", province := "P", postal_code := "12345", is_default := true,
    created_at := 0, updated_at := 0 }

/-- User 1's cart line: 2 units of the example product. -/
def exCart : CartItem :=
  { id := 1, user_id := 1, product_id := 1, quantity := 2,
    created_at := 0, updated_at := 0 }

/-- The state of the §8 example before checkout. -/
def exDB : DB :=
  { products := [exProduct], addresses := [exAddress],
    cart_items := [exCart], orders := [], order_items := [] }

/-- The §8 example checkout: shipping 10.00, tax 5.00, discount 0. -/
def exCheckout : Except CheckoutError (DB × Order) :=
  checkout exDB 1 1 PaymentMethod.cod none 1000 500 0 "ORD-1" 5

/-- A fallback order row for projections out of `Except` values. -/
def noOrder : Order :=
  { id := 0, order_number := "", user_id := 0, status := .pending,
    subtotal := 0, shipping_cost := 0, tax_amount := 0, discount_amount := 0,
    total_amount := 0, payment_method := .cod, payment_status := .pending,
    shipping_address_id := 0, notes := none, tracking_number := none,
    shipped_at := none, delivered_at := none, created_at := 0, updated_at := 0 }

/-- The state after the §8 example checkout. -/
def exDB2 : DB :=
  match exCheckout with
  | .ok (d, _) => d
  | .error _ => exDB

/-- The order produced by the §8 example checkout. -/
def exOrder : Order :=
  match exCheckout with
  | .ok (_, o) => o
  | .error _ => noOrder

/-- A delivered order, used to exercise the terminal-state rule. -/
def exDelivered : Order :=
  { noOrder with
      order_number := "D",
      user_id := 1,
      status := .delivered,
      payment_status := .paid,
      shipping_address_id := 1 }

/-- A state holding only the delivered order. -/
def exDB3 : DB :=
  { products := [], addresses := [], cart_items := [], orders := [exDelivered],
    order_items := [] }

/-- A confirmed order over 2 units of the example product, with its order
line; the product's stock already reflects the decrement. -/
def exConfirmed : Order :=
  { noOrder with
      order_number := "C1",
      user_id := 1,
      status := .confirmed,
      subtotal := 20000,
      total_amount := 20000,
      shipping_address_id := 1 }

/-- The order line of `exConfirmed`. -/
def exConfirmedItem : OrderItem :=
  { id := 0, order_id := 0, product_id := 1, quantity := 2,
    unit_price := 10000, total_price := 20000,
    product_snapshot := productSnapshot exProduct }

/-- A state holding the confirmed order, its line, and the decremented
product. -/
def exDB5 : DB :=
  { products := [{ exProduct with stock_quantity := 3 }],
    addresses := [exAddress], cart_items := [], orders := [exConfirmed],
    order_items := [exConfirmedItem] }

/-- The state after cancelling `exConfirmed`. -/
def exDB5c : DB :=
  match transition_status exDB5 0 OrderStatus.cancelled 7 with
  | .ok d => d
  | .error _ => exDB5

/-- The state after upserting 3 more units of product 1 into user 1's
cart. -/
def exDBup : DB :=
  match add_or_update exDB 1 1 3 9 with
  | .ok d => d
  | .error _ => exDB

/-- A second user with a cart line for the last unit of a one-unit
product, used to instantiate the concurrency theorem. -/
def exLastUnitDB : DB :=
  { products := [{ exProduct with stock_quantity := 1 }],
    addresses := [exAddress,
      { exAddress with id := 2, user_id := 2 }],
    cart_items := [{ exCart with quantity := 1 },
      { id := 2, user_id := 2, product_id := 1, quantity := 1,
        created_at := 0, updated_at := 0 }],
    orders := [], order_items := [] }

/-! Helper lemmas about the list-level building blocks. -/

theorem find?_map_key {α : Type} (f : α → α) (key : α → Nat)
    (hf : ∀ x, key (f x) = key x) (k : Nat) (l : List α) :
    (l.map f).find? (fun x => key x == k) =
      (l.find? (fun x => key x == k)).map f := by
  induction l with
  | nil => rfl
  | cons x l ih =>
    by_cases h : key x = k
    · rw [List.map_cons, List.find?_cons_of_pos _ (by simp [hf, h]),
        List.find?_cons_of_pos _ (by simp [h])]
      rfl
    · rw [List.map_cons, List.find?_cons_of_neg _ (by simp [hf, h]),
        List.find?_cons_of_neg _ (by simp [h]), ih]

theorem mem_id_unique {ps : List Product} {x p : Product}
    (hu : ps.Pairwise (fun a b => a.id ≠ b.id))
    (hx : x ∈ ps) (hp : p ∈ ps) (h : x.id = p.id) : x = p := by
  induction ps with
  | nil => cases hx
  | cons a l ih =>
    rcases List.pairwise_cons.mp hu with ⟨ha, hl⟩
    rcases List.mem_cons.mp hx with hx1 | hx1
    · rcases List.mem_cons.mp hp with hp1 | hp1
      · rw [hx1, hp1]
      · exact absurd (hx1 ▸ h) (ha p hp1)
    · rcases List.mem_cons.mp hp with hp1 | hp1
      · exact absurd (hp1 ▸ h.symm) (ha x hx1)
      · exact ih hl hx1 hp1

theorem find?_id_unique {ps : List Product} {p x : Product} {pid : Nat}
    (hu : ps.Pairwise (fun a b => a.id ≠ b.id))
    (hf : ps.find? (fun y => y.id == pid) = some p)
    (hx : x ∈ ps) (hid : x.id = pid) : x = p := by
  have hp : p ∈ ps := List.mem_of_find?_eq_some hf
  have hpid : p.id = pid := by
    have := List.find?_some hf
    simpa using this
  exact mem_id_unique hu hx hp (by rw [hid, hpid])

theorem le_foldr_max {l : List Nat} {x : Nat} (hx : x ∈ l) :
    x ≤ l.foldr max 0 := by
  induction l with
  | nil => cases hx
  | cons a l ih =>
    rcases List.mem_cons.mp hx with h | h
    · rw [h, List.foldr_cons]; exact le_max_left _ _
    · exact le_trans (ih h) (le_max_right _ _)

theorem lineQty_nil (pid : Nat) : lineQty [] pid = 0 := rfl

theorem lineQty_cons (c : CartItem) (rest : List CartItem) (pid : Nat) :
    lineQty (c :: rest) pid =
      (if c.product_id = pid then c.quantity else 0) + lineQty rest pid := by
  by_cases h : c.product_id = pid <;>
    simp [lineQty, List.filter_cons, h]

theorem restockQty_nil (pid : Nat) : restockQty [] pid = 0 := rfl

theorem restockQty_cons (i : OrderItem) (rest : List OrderItem) (pid : Nat) :
    restockQty (i :: rest) pid =
      (if i.product_id = pid then i.quantity else 0) + restockQty rest pid := by
  by_cases h : i.product_id = pid <;>
    simp [restockQty, List.filter_cons, h]

theorem restockQty_nonneg {items : List OrderItem} {pid : Nat}
    (hq : ∀ i ∈ items, 1 ≤ i.quantity) : 0 ≤ restockQty items pid := by
  apply List.sum_nonneg
  intro x hx
  rcases List.mem_map.mp hx with ⟨i, hi, rfl⟩
  exact le_trans (by norm_num) (hq i (List.mem_of_mem_filter hi))

theorem addStock_id (ps : List Product) (pid : Nat) (q : Int) :
    ∀ x ∈ addStock ps pid q, ∃ y ∈ ps, x.id = y.id ∧ x.price = y.price := by
  intro x hx
  rcases List.mem_map.mp hx with ⟨y, hy, rfl⟩
  by_cases h : y.id = pid <;> simp [h] <;> exact ⟨y, hy, by simp [h]⟩

theorem restock_eq_map :
    ∀ (items : List OrderItem) (ps : List Product),
      restock ps items = ps.map (fun p =>
        { p with stock_quantity := p.stock_quantity + restockQty items p.id })
  | [], ps => by
    have : (fun p : Product =>
        { p with stock_quantity := p.stock_quantity + restockQty [] p.id }) =
        fun p => p := by
      funext p
      simp [restockQty_nil]
    rw [restock, this, List.map_id']
  | i :: rest, ps => by
    rw [restock, restock_eq_map rest (addStock ps i.product_id i.quantity),
      addStock, List.map_map]
    apply List.map_congr_left
    intro p _
    by_cases h : p.id = i.product_id
    · simp only [Function.comp_apply, h, beq_self_eq_true, if_pos]
      simp [restockQty_cons, h, add_assoc]
    · have hb : (p.id == i.product_id) = false := by simp [h]
      simp only [Function.comp_apply, hb, Bool.false_eq_true, if_false]
      have : i.product_id ≠ p.id := fun hc => h hc.symm
      simp [restockQty_cons, this]

theorem processLines_ok_spec (oid : Nat) :
    ∀ (lines : List CartItem) (ps ps2 : List Product) (items : List OrderItem)
      (sub : Int),
      processLines oid ps lines = .ok (ps2, items, sub) →
      ps2 = ps.map (fun p =>
          { p with stock_quantity := p.stock_quantity - lineQty lines p.id }) ∧
      items.map (fun i => (i.product_id, i.quantity)) =
        lines.map (fun c => (c.product_id, c.quantity)) ∧
      ∀ i ∈ items, i.total_price = i.unit_price * i.quantity ∧
        i.order_id = oid := by
  intro lines
  induction lines with
  | nil =>
    intro ps ps2 items sub h
    rw [processLines] at h
    simp only [Except.ok.injEq, Prod.mk.injEq] at h
    obtain ⟨rfl, rfl, rfl⟩ := h
    refine ⟨?_, by simp, by simp⟩
    have he : (fun p : Product =>
        { p with stock_quantity := p.stock_quantity - lineQty [] p.id }) =
        fun p => p := by
      funext p
      simp [lineQty_nil]
    rw [he, List.map_id']
  | cons c rest ih =>
    intro ps ps2 items sub h
    rw [processLines] at h
    split at h
    · exact absurd h (by simp)
    rename_i p hf
    split at h
    · exact absurd h (by simp)
    rename_i hact
    split at h
    · exact absurd h (by simp)
    rename_i hstk
    split at h
    · exact absurd h (by simp)
    rename_i ps2x itemsx subx hrec
    simp only [Except.ok.injEq, Prod.mk.injEq] at h
    obtain ⟨rfl, rfl, rfl⟩ := h
    obtain ⟨ihp, ihm, ihf⟩ := ih _ _ _ _ hrec
    refine ⟨?_, by simp [ihm], ?_⟩
    · rw [ihp, addStock, List.map_map]
      apply List.map_congr_left
      intro x _
      by_cases hx : x.id = c.product_id
      · simp only [Function.comp_apply, hx, beq_self_eq_true, if_pos]
        have hq : lineQty (c :: rest) c.product_id =
            c.quantity + lineQty rest c.product_id := by
          rw [lineQty_cons, if_pos rfl]
        simp [Product.mk.injEq, hq]
        omega
      · have hb : (x.id == c.product_id) = false := by simp [hx]
        simp only [Function.comp_apply, hb, Bool.false_eq_true, if_false]
        have hne : c.product_id ≠ x.id := fun hc => hx hc.symm
        simp [Product.mk.injEq, lineQty_cons, hne]
    · intro i hi
      rcases List.mem_cons.mp hi with rfl | hi
      · exact ⟨rfl, rfl⟩
      · exact ihf i hi

theorem stockAdj_id (pid : Nat) (q : Int) (p : Product) :
    (if p.id == pid then
        { p with stock_quantity := p.stock_quantity + q } else p).id = p.id := by
  by_cases h : p.id = pid <;> simp [h]

theorem addStock_pairwise {ps : List Product} {pid : Nat} {q : Int}
    (hu : ps.Pairwise (fun a b => a.id ≠ b.id)) :
    (addStock ps pid q).Pairwise (fun a b => a.id ≠ b.id) := by
  rw [addStock, List.pairwise_map]
  refine hu.imp (fun hab => ?_)
  rw [stockAdj_id, stockAdj_id]
  exact hab

theorem addStock_dec_inv {ps : List Product} {p : Product} {pid : Nat} {q : Int}
    (hu : ps.Pairwise (fun a b => a.id ≠ b.id))
    (hf : ps.find? (fun y => y.id == pid) = some p)
    (hq : q ≤ p.stock_quantity)
    (hinv : ∀ x ∈ ps, 0 ≤ x.stock_quantity ∧ 0 ≤ x.price) :
    ∀ x ∈ addStock ps pid (-q), 0 ≤ x.stock_quantity ∧ 0 ≤ x.price := by
  intro x hx
  rcases List.mem_map.mp hx with ⟨y, hy, rfl⟩
  by_cases h : y.id = pid
  · have hyp : y = p := find?_id_unique hu hf hy h
    subst hyp
    simp only [h, beq_self_eq_true, if_pos]
    exact ⟨by omega, (hinv y hy).2⟩
  · have hb : (y.id == pid) = false := by simp [h]
    simp only [hb, Bool.false_eq_true, if_false]
    exact hinv y hy

theorem processLines_ok_inv (oid : Nat) :
    ∀ (lines : List CartItem) (ps ps2 : List Product) (items : List OrderItem)
      (sub : Int),
      processLines oid ps lines = .ok (ps2, items, sub) →
      ps.Pairwise (fun a b => a.id ≠ b.id) →
      (∀ x ∈ ps, 0 ≤ x.stock_quantity ∧ 0 ≤ x.price) →
      ∀ x ∈ ps2, 0 ≤ x.stock_quantity ∧ 0 ≤ x.price := by
  intro lines
  induction lines with
  | nil =>
    intro ps ps2 items sub h hu hinv
    rw [processLines] at h
    simp only [Except.ok.injEq, Prod.mk.injEq] at h
    obtain ⟨rfl, -, -⟩ := h
    exact hinv
  | cons c rest ih =>
    intro ps ps2 items sub h hu hinv
    rw [processLines] at h
    split at h
    · exact absurd h (by simp)
    rename_i p hf
    split at h
    · exact absurd h (by simp)
    rename_i hact
    split at h
    · exact absurd h (by simp)
    rename_i hstk
    split at h
    · exact absurd h (by simp)
    rename_i ps2x itemsx subx hrec
    simp only [Except.ok.injEq, Prod.mk.injEq] at h
    obtain ⟨rfl, -, -⟩ := h
    exact ih _ _ _ _ hrec (addStock_pairwise hu)
      (addStock_dec_inv hu hf (by omega) hinv)

theorem checkout_ok_elim {db : DB} {uid aid : Nat} {pm : PaymentMethod}
    {notes : Option String} {sc tx dc : Int} {num : String} {now : Nat}
    {db2 : DB} {o : Order}
    (h : checkout db uid aid pm notes sc tx dc num now = .ok (db2, o)) :
    ∃ ps2 items sub,
      processLines db.orders.length db.products (userCartLines db uid) =
        .ok (ps2, items, sub) ∧
      db2 = { db with
                products := ps2,
                cart_items := db.cart_items.filter (fun c => c.user_id != uid),
                orders := db.orders ++ [o],
                order_items := db.order_items ++ items } ∧
      o = { id := db.orders.length,
            order_number := num, user_id := uid,
            status := .pending, subtotal := sub, shipping_cost := sc,
            tax_amount := tx, discount_amount := dc,
            total_amount := sub + sc + tx - dc, payment_method := pm,
            payment_status := .pending, shipping_address_id := aid,
            notes := notes, tracking_number := none, shipped_at := none,
            delivered_at := none, created_at := now, updated_at := now } := by
  simp only [checkout] at h
  split at h
  · exact absurd h (by simp)
  split at h
  · exact absurd h (by simp)
  split at h
  · exact absurd h (by simp)
  rename_i ps2 items sub hrec
  simp only [Except.ok.injEq, Prod.mk.injEq] at h
  obtain ⟨h1, h2⟩ := h
  subst h2
  exact ⟨ps2, items, sub, hrec, h1.symm, rfl⟩

theorem transition_ok_elim {db : DB} {oid : Nat} {dst : OrderStatus}
    {now : Nat} {db2 : DB}
    (h : transition_status db oid dst now = .ok db2) :
    ∃ o, findOrder db oid = some o ∧ allowedTransition o.status dst = true ∧
      db2 = { db with
        products :=
          if dst == .cancelled &&
              (o.status == .confirmed || o.status == .processing) then
            restock db.products (orderLines db oid)
          else db.products,
        orders := db.orders.map (fun x =>
          if x.id == oid then applyStatus x dst now else x) } := by
  simp only [transition_status] at h
  split at h
  · exact absurd h (by simp)
  rename_i o hfind
  split at h
  · exact absurd h (by simp)
  rename_i hal
  simp only [Except.ok.injEq] at h
  exact ⟨o, hfind, by simpa using hal, h.symm⟩

theorem payment_ok_elim {db : DB} {oid : Nat} {pst : PaymentStatus}
    {now : Nat} {db2 : DB}
    (h : update_payment_status db oid pst now = .ok db2) :
    db2 = { db with orders := db.orders.map (fun x =>
      if x.id == oid then { x with payment_status := pst, updated_at := now }
      else x) } := by
  rw [update_payment_status] at h
  split at h
  · exact absurd h (by simp)
  simp only [Except.ok.injEq] at h
  exact h.symm

theorem add_or_update_ok_elim {db : DB} {uid pid : Nat} {q : Int} {now : Nat}
    {db2 : DB} (h : add_or_update db uid pid q now = .ok db2) :
    (∃ c0, db.cart_items.find?
        (fun c => c.user_id == uid && c.product_id == pid) = some c0 ∧
      db2 = { db with cart_items := db.cart_items.map (fun c =>
        if c.user_id == uid && c.product_id == pid then
          { c with quantity := c.quantity + q, updated_at := now }
        else c) }) ∨
    (db.cart_items.find?
        (fun c => c.user_id == uid && c.product_id == pid) = none ∧
      db2 = { db with cart_items := db.cart_items ++
        [{ id := db.cart_items.length, user_id := uid, product_id := pid,
           quantity := q, created_at := now, updated_at := now }] }) := by
  rw [add_or_update] at h
  split at h
  · exact absurd h (by simp)
  split at h
  · exact absurd h (by simp)
  split at h
  · rename_i c0 hfind
    simp only [Except.ok.injEq] at h
    exact .inl ⟨c0, hfind, h.symm⟩
  · rename_i hfind
    simp only [Except.ok.injEq] at h
    exact .inr ⟨hfind, h.symm⟩

theorem createProduct_ok_elim {db : DB} {c : ProductCreate} {now : Nat}
    {db2 : DB} (h : createProduct db c now = .ok db2) :
    validProductCreate c = true ∧
    db2 = { db with
      products := db.products ++ [productOfCreate c (nextProductId db) now] } := by
  rw [createProduct] at h
  split at h
  · exact absurd h (by simp)
  rename_i hv
  simp only [Except.ok.injEq] at h
  exact ⟨by simpa using hv, h.symm⟩

theorem updateProduct_ok_elim {db : DB} {pid : Nat} {u : ProductUpdate}
    {now : Nat} {db2 : DB} (h : updateProduct db pid u now = .ok db2) :
    validProductUpdate u = true ∧
    db2 = { db with products := db.products.map (fun p =>
      if p.id == pid then applyProductUpdate p u now else p) } := by
  rw [updateProduct] at h
  split at h
  · exact absurd h (by simp)
  rename_i hv
  split at h
  · exact absurd h (by simp)
  simp only [Except.ok.injEq] at h
  exact ⟨by simpa using hv, h.symm⟩

/-! The claims. -/

/-- Claim C9: for a Product with price 100.00 and stock_quantity 5, a
successful checkout of quantity 2 with shipping_cost 10.00, tax_amount 5.00
and discount_amount 0 produces an Order with subtotal 200.00 and
total_amount 215.00, and leaves the Product's stock_quantity equal to 3
(amounts in cents). -/
theorem checkout_worked_example :
    exCheckout = .ok (exDB2, exOrder) ∧
    exOrder.subtotal = 20000 ∧ exOrder.total_amount = 21500 ∧
    (findProduct exDB2 1).map Product.stock_quantity = some 3 := by
  refine ⟨?_, by decide, by decide, by decide⟩
  rfl

/-- Claim C10: the public product-update schema (`ProductUpdate`) contains
no `sku` field, so applying any update through it leaves the product's
`sku` unchanged — `sku` is fixed at creation. -/
theorem productUpdate_preserves_sku (p : Product) (u : ProductUpdate)
    (now : Nat) : (applyProductUpdate p u now).sku = p.sku := rfl

/-- Claim C3: `transition_status` permits exactly the edges
pending→confirmed, confirmed→processing, processing→shipped,
shipped→delivered and pending/confirmed/processing→cancelled; every other
(from, to) pair on an existing order fails with `IllegalTransition`, and no
transition leaves `delivered` or `cancelled`. -/
theorem transition_status_table :
    (∀ a b : OrderStatus, allowedTransition a b = true ↔
      ((a = .pending ∧ b = .confirmed) ∨ (a = .confirmed ∧ b = .processing) ∨
       (a = .processing ∧ b = .shipped) ∨ (a = .shipped ∧ b = .delivered) ∨
       (a = .pending ∧ b = .cancelled) ∨ (a = .confirmed ∧ b = .cancelled) ∨
       (a = .processing ∧ b = .cancelled))) ∧
    (∀ b : OrderStatus, allowedTransition .delivered b = false ∧
      allowedTransition .cancelled b = false) ∧
    (∀ (db : DB) (oid : Nat) (dst : OrderStatus) (now : Nat) (o : Order),
      findOrder db oid = some o → allowedTransition o.status dst = false →
      transition_status db oid dst now =
        .error (.IllegalTransition o.status dst)) ∧
    (∀ (db : DB) (oid : Nat) (dst : OrderStatus) (now : Nat) (o : Order),
      findOrder db oid = some o → allowedTransition o.status dst = true →
      ∃ db2, transition_status db oid dst now = .ok db2) := by
  refine ⟨by decide, by decide, ?_, ?_⟩
  · intro db oid dst now o hf hal
    simp [transition_status, hf, hal]
  · intro db oid dst now o hf hal
    exact ⟨{ db with
        products :=
          if dst == .cancelled &&
              (o.status == .confirmed || o.status == .processing) then
            restock db.products (orderLines db oid)
          else db.products,
        orders := db.orders.map (fun x =>
          if x.id == oid then applyStatus x dst now else x) },
      by simp [transition_status, hf, hal]⟩

/-- Witness for `transition_status_table`: moving the concrete delivered
order of `exDB3` to `confirmed` fails with `IllegalTransition`. -/
theorem transition_status_table_witness :
    transition_status exDB3 0 OrderStatus.confirmed 1 =
      .error (.IllegalTransition OrderStatus.delivered OrderStatus.confirmed) :=
  transition_status_table.2.2.1 exDB3 0 OrderStatus.confirmed 1 exDelivered
    (by decide) (by decide)

/-- Claim C1: every order is created by `checkout` satisfying
`total_amount = subtotal + shipping_cost + tax_amount − discount_amount`,
and no operation afterwards makes any stored order drift from that
identity. -/
theorem order_total_amount_invariant :
    (∀ (db : DB) (uid aid : Nat) (pm : PaymentMethod) (notes : Option String)
       (sc tx dc : Int) (num : String) (now : Nat) (db2 : DB) (o : Order),
      checkout db uid aid pm notes sc tx dc num now = .ok (db2, o) →
      o.total_amount =
          o.subtotal + o.shipping_cost + o.tax_amount - o.discount_amount ∧
        (ordersAmountInv db → ordersAmountInv db2)) ∧
    (∀ (db : DB) (oid : Nat) (dst : OrderStatus) (now : Nat) (db2 : DB),
      transition_status db oid dst now = .ok db2 →
      ordersAmountInv db → ordersAmountInv db2) ∧
    (∀ (db : DB) (oid : Nat) (pst : PaymentStatus) (now : Nat) (db2 : DB),
      update_payment_status db oid pst now = .ok db2 →
      ordersAmountInv db → ordersAmountInv db2) ∧
    (∀ (db : DB) (uid pid : Nat) (q : Int) (now : Nat) (db2 : DB),
      add_or_update db uid pid q now = .ok db2 → db2.orders = db.orders) ∧
    (∀ (db : DB) (uid pid : Nat), (removeCartItem db uid pid).orders = db.orders) ∧
    (∀ (db : DB) (uid : Nat), (clearCart db uid).orders = db.orders) ∧
    (∀ (db : DB) (c : ProductCreate) (now : Nat) (db2 : DB),
      createProduct db c now = .ok db2 → db2.orders = db.orders) ∧
    (∀ (db : DB) (pid : Nat) (u : ProductUpdate) (now : Nat) (db2 : DB),
      updateProduct db pid u now = .ok db2 → db2.orders = db.orders) := by
  refine ⟨?_, ?_, ?_, ?_, ?_, ?_, ?_, ?_⟩
  · intro db uid aid pm notes sc tx dc num now db2 o h
    obtain ⟨ps2, items, sub, hrec, hdb2, ho⟩ := checkout_ok_elim h
    constructor
    · rw [ho]
    · intro hinv o2 ho2
      rw [hdb2] at ho2
      rcases List.mem_append.mp ho2 with h2 | h2
      · exact hinv o2 h2
      · have : o2 = o := by simpa using h2
        rw [this, ho]
  · intro db oid dst now db2 h hinv
    obtain ⟨o, hf, hal, hdb2⟩ := transition_ok_elim h
    intro o2 ho2
    rw [hdb2] at ho2
    rcases List.mem_map.mp ho2 with ⟨x, hx, rfl⟩
    by_cases h3 : (x.id == oid) = true
    · rw [if_pos h3]
      exact hinv x hx
    · rw [if_neg h3]
      exact hinv x hx
  · intro db oid pst now db2 h hinv
    have hdb2 := payment_ok_elim h
    intro o2 ho2
    rw [hdb2] at ho2
    rcases List.mem_map.mp ho2 with ⟨x, hx, rfl⟩
    by_cases h3 : (x.id == oid) = true
    · rw [if_pos h3]
      exact hinv x hx
    · rw [if_neg h3]
      exact hinv x hx
  · intro db uid pid q now db2 h
    rcases add_or_update_ok_elim h with ⟨c0, -, hdb2⟩ | ⟨-, hdb2⟩ <;> rw [hdb2]
  · intro db uid pid
    rfl
  · intro db uid
    rfl
  · intro db c now db2 h
    rw [(createProduct_ok_elim h).2]
  · intro db pid u now db2 h
    rw [(updateProduct_ok_elim h).2]

/-- Witness for `order_total_amount_invariant`: the §8 example checkout
produces an order satisfying the identity, preserving the stored-order
invariant. -/
theorem order_total_amount_invariant_witness :
    exOrder.total_amount = exOrder.subtotal + exOrder.shipping_cost +
        exOrder.tax_amount - exOrder.discount_amount ∧
    (ordersAmountInv exDB → ordersAmountInv exDB2) :=
  order_total_amount_invariant.1 exDB 1 1 PaymentMethod.cod none 1000 500 0
    "ORD-1" 5 exDB2 exOrder (by rfl)

/-- Claim C2: `checkout` is atomic — on any error the returned state is the
input state unchanged, and on success the stock decrements for every line,
the order row, its order lines and the clearing of the user's cart all
appear together in the returned state. -/
theorem checkout_atomicity :
    (∀ (db : DB) (uid aid : Nat) (pm : PaymentMethod) (notes : Option String)
       (sc tx dc : Int) (num : String) (now : Nat) (db2 : DB)
       (e : CheckoutError),
      checkoutRun db uid aid pm notes sc tx dc num now = (db2, .error e) →
      db2 = db) ∧
    (∀ (db : DB) (uid aid : Nat) (pm : PaymentMethod) (notes : Option String)
       (sc tx dc : Int) (num : String) (now : Nat) (db2 : DB) (o : Order),
      checkoutRun db uid aid pm notes sc tx dc num now = (db2, .ok o) →
      db2.products = db.products.map (fun p =>
        { p with stock_quantity :=
            p.stock_quantity - lineQty (userCartLines db uid) p.id }) ∧
      db2.cart_items = db.cart_items.filter (fun c => c.user_id != uid) ∧
      db2.orders = db.orders ++ [o] ∧
      ∃ items, db2.order_items = db.order_items ++ items ∧
        items.map (fun i => (i.product_id, i.quantity)) =
          (userCartLines db uid).map (fun c => (c.product_id, c.quantity))) := by
  constructor
  · intro db uid aid pm notes sc tx dc num now db2 e h
    rw [checkoutRun] at h
    split at h
    · simp only [Prod.mk.injEq] at h
      exact h.1.symm
    · simp only [Prod.mk.injEq] at h
      exact absurd h.2 (by simp)
  · intro db uid aid pm notes sc tx dc num now db2 o h
    rw [checkoutRun] at h
    split at h
    · simp only [Prod.mk.injEq] at h
      exact absurd h.2 (by simp)
    · rename_i dbx ox hck
      simp only [Prod.mk.injEq, Except.ok.injEq] at h
      obtain ⟨rfl, rfl⟩ := h
      obtain ⟨ps2, items, sub, hrec, hdb2, ho⟩ := checkout_ok_elim hck
      obtain ⟨hprod, hmap, -⟩ := processLines_ok_spec _ _ _ _ _ _ hrec
      rw [hdb2]
      exact ⟨hprod, rfl, rfl, items, rfl, hmap⟩

/-- Witness for `checkout_atomicity`: the §8 example checkout succeeds and
exhibits all of its effects together. -/
theorem checkout_atomicity_witness :
    exDB2.products = exDB.products.map (fun p =>
      { p with stock_quantity :=
          p.stock_quantity - lineQty (userCartLines exDB 1) p.id }) ∧
    exDB2.cart_items = exDB.cart_items.filter (fun c => c.user_id != 1) ∧
    exDB2.orders = exDB.orders ++ [exOrder] ∧
    ∃ items, exDB2.order_items = exDB.order_items ++ items ∧
      items.map (fun i => (i.product_id, i.quantity)) =
        (userCartLines exDB 1).map (fun c => (c.product_id, c.quantity)) :=
  checkout_atomicity.2 exDB 1 1 PaymentMethod.cod none 1000 500 0 "ORD-1" 5
    exDB2 exOrder (by rfl)

theorem statusAdj_id (oid : Nat) (dst : OrderStatus) (now : Nat) (x : Order) :
    (if x.id == oid then applyStatus x dst now else x).id = x.id := by
  by_cases h : x.id = oid <;> simp [h, applyStatus]

/-- Claim C5: transitioning an order in status confirmed or processing to
cancelled increments the stock of each order line's product by that line's
quantity, atomically with the status change. -/
theorem cancel_restores_stock (db : DB) (oid now : Nat) (o : Order) (db2 : DB)
    (hfind : findOrder db oid = some o)
    (hst : o.status = .confirmed ∨ o.status = .processing)
    (h : transition_status db oid .cancelled now = .ok db2) :
    db2.products = db.products.map (fun p =>
      { p with stock_quantity :=
          p.stock_quantity + restockQty (orderLines db oid) p.id }) ∧
    findOrder db2 oid = some { o with status := .cancelled, updated_at := now } := by
  obtain ⟨o2, hfind2, hal, hdb2⟩ := transition_ok_elim h
  rw [hfind] at hfind2
  obtain rfl : o = o2 := Option.some.inj hfind2
  constructor
  · rw [hdb2]
    show (if (OrderStatus.cancelled == OrderStatus.cancelled &&
        (o.status == .confirmed || o.status == .processing)) = true then
        restock db.products (orderLines db oid) else db.products) = _
    have hcond : (OrderStatus.cancelled == OrderStatus.cancelled &&
        (o.status == OrderStatus.confirmed ||
          o.status == OrderStatus.processing)) = true := by
      rcases hst with h1 | h1 <;> simp [h1]
    rw [if_pos hcond, restock_eq_map]
  · rw [hdb2]
    show (db.orders.map (fun x =>
      if x.id == oid then applyStatus x .cancelled now else x)).find?
        (fun x => x.id == oid) = _
    rw [find?_map_key _ Order.id (statusAdj_id oid .cancelled now) oid db.orders]
    have hfo : db.orders.find? (fun x => x.id == oid) = some o := hfind
    rw [hfo]
    have hoid : (o.id == oid) = true := by
      simpa using List.find?_some hfo
    simp only [Option.map_some']
    rw [if_pos hoid]
    have : applyStatus o .cancelled now =
        { o with status := .cancelled, updated_at := now } := by
      simp [applyStatus]
    rw [this]

/-- Witness for `cancel_restores_stock`: cancelling the concrete confirmed
order restores the product's stock and flips the status. -/
theorem cancel_restores_stock_witness :
    exDB5c.products = exDB5.products.map (fun p =>
      { p with stock_quantity :=
          p.stock_quantity + restockQty (orderLines exDB5 0) p.id }) ∧
    findOrder exDB5c 0 =
      some { exConfirmed with status := .cancelled, updated_at := 7 } :=
  cancel_restores_stock exDB5 0 7 exConfirmed exDB5c (by decide)
    (by decide) (by rfl)

theorem updAdj_id (pid : Nat) (u : ProductUpdate) (now : Nat) (p : Product) :
    (if p.id == pid then applyProductUpdate p u now else p).id = p.id := by
  by_cases h : p.id = pid <;> simp [h, applyProductUpdate]

/-- Claim C6: every product row keeps a non-negative stock_quantity and a
present, non-negative price, and every operation of the core preserves
this (as part of the schema well-formedness invariant `DBInv`). -/
theorem product_bounds_invariant :
    (∀ db, DBInv db → productInv db) ∧
    (∀ (db : DB) (uid aid : Nat) (pm : PaymentMethod) (notes : Option String)
       (sc tx dc : Int) (num : String) (now : Nat) (db2 : DB) (o : Order),
      checkout db uid aid pm notes sc tx dc num now = .ok (db2, o) →
      DBInv db → DBInv db2) ∧
    (∀ (db : DB) (oid : Nat) (dst : OrderStatus) (now : Nat) (db2 : DB),
      transition_status db oid dst now = .ok db2 → DBInv db → DBInv db2) ∧
    (∀ (db : DB) (oid : Nat) (pst : PaymentStatus) (now : Nat) (db2 : DB),
      update_payment_status db oid pst now = .ok db2 → DBInv db → DBInv db2) ∧
    (∀ (db : DB) (uid pid : Nat) (q : Int) (now : Nat) (db2 : DB),
      1 ≤ q → add_or_update db uid pid q now = .ok db2 → DBInv db → DBInv db2) ∧
    (∀ (db : DB) (uid pid : Nat), DBInv db → DBInv (removeCartItem db uid pid)) ∧
    (∀ (db : DB) (uid : Nat), DBInv db → DBInv (clearCart db uid)) ∧
    (∀ (db : DB) (c : ProductCreate) (now : Nat) (db2 : DB),
      createProduct db c now = .ok db2 → DBInv db → DBInv db2) ∧
    (∀ (db : DB) (pid : Nat) (u : ProductUpdate) (now : Nat) (db2 : DB),
      updateProduct db pid u now = .ok db2 → DBInv db → DBInv db2) := by
  refine ⟨fun db h => h.1, ?_, ?_, ?_, ?_, ?_, ?_, ?_, ?_⟩
  · -- checkout
    intro db uid aid pm notes sc tx dc num now db2 o h hinv
    obtain ⟨hp, hu, hc, hoi⟩ := hinv
    obtain ⟨ps2, items, sub, hrec, hdb2, ho⟩ := checkout_ok_elim h
    obtain ⟨hprod, hmap, -⟩ := processLines_ok_spec _ _ _ _ _ _ hrec
    subst hdb2
    refine ⟨?_, ?_, ?_, ?_⟩
    · intro x hx
      exact processLines_ok_inv _ _ _ _ _ _ hrec hu hp x hx
    · show ps2.Pairwise _
      rw [hprod, List.pairwise_map]
      exact hu.imp (fun hab => hab)
    · intro x hx
      exact hc x (List.mem_of_mem_filter hx)
    · intro i hi
      rcases List.mem_append.mp hi with h1 | h1
      · exact hoi i h1
      · have h2 : (i.product_id, i.quantity) ∈
            items.map (fun i => (i.product_id, i.quantity)) :=
          List.mem_map_of_mem _ h1
        rw [hmap] at h2
        rcases List.mem_map.mp h2 with ⟨cc, hcc, heq⟩
        have hq2 : cc.quantity = i.quantity := congrArg Prod.snd heq
        rw [← hq2]
        exact hc cc (List.mem_of_mem_filter hcc)
  · -- transition_status
    intro db oid dst now db2 h hinv
    obtain ⟨hp, hu, hc, hoi⟩ := hinv
    obtain ⟨o, hf, hal, hdb2⟩ := transition_ok_elim h
    subst hdb2
    have hrq : ∀ i ∈ orderLines db oid, 1 ≤ i.quantity :=
      fun i hi => hoi i (List.mem_of_mem_filter hi)
    refine ⟨?_, ?_, hc, hoi⟩
    · intro x hx
      by_cases hcond : (dst == OrderStatus.cancelled &&
          (o.status == OrderStatus.confirmed ||
            o.status == OrderStatus.processing)) = true
      · rw [show ((({ db with
            products := if dst == OrderStatus.cancelled &&
                (o.status == OrderStatus.confirmed ||
                  o.status == OrderStatus.processing) then
              restock db.products (orderLines db oid) else db.products,
            orders := db.orders.map (fun x =>
              if x.id == oid then applyStatus x dst now else x) } : DB)).products) =
            restock db.products (orderLines db oid) from by rw [if_pos hcond]] at hx
        rw [restock_eq_map] at hx
        rcases List.mem_map.mp hx with ⟨y, hy, rfl⟩
        exact ⟨add_nonneg (hp y hy).1 (restockQty_nonneg hrq), (hp y hy).2⟩
      · rw [show ((({ db with
            products := if dst == OrderStatus.cancelled &&
                (o.status == OrderStatus.confirmed ||
                  o.status == OrderStatus.processing) then
              restock db.products (orderLines db oid) else db.products,
            orders := db.orders.map (fun x =>
              if x.id == oid then applyStatus x dst now else x) } : DB)).products) =
            db.products from by rw [if_neg hcond]] at hx
        exact hp x hx
    · show (if (dst == OrderStatus.cancelled &&
          (o.status == OrderStatus.confirmed ||
            o.status == OrderStatus.processing)) = true then
          restock db.products (orderLines db oid) else db.products).Pairwise _
      split
      · rw [restock_eq_map, List.pairwise_map]
        exact hu.imp (fun hab => hab)
      · exact hu
  · -- update_payment_status
    intro db oid pst now db2 h hinv
    have hdb2 := payment_ok_elim h
    subst hdb2
    exact ⟨hinv.1, hinv.2.1, hinv.2.2.1, hinv.2.2.2⟩
  · -- add_or_update
    intro db uid pid q now db2 hq h hinv
    obtain ⟨hp, hu, hc, hoi⟩ := hinv
    rcases add_or_update_ok_elim h with ⟨c0, -, hdb2⟩ | ⟨hfind, hdb2⟩ <;> subst hdb2
    · refine ⟨hp, hu, ?_, hoi⟩
      intro cc hcc
      rcases List.mem_map.mp hcc with ⟨y, hy, rfl⟩
      by_cases hk : (y.user_id == uid && y.product_id == pid) = true
      · rw [if_pos hk]
        have := hc y hy
        show 1 ≤ y.quantity + q
        omega
      · rw [if_neg hk]
        exact hc y hy
    · refine ⟨hp, hu, ?_, hoi⟩
      intro cc hcc
      rcases List.mem_append.mp hcc with h1 | h1
      · exact hc cc h1
      · have : cc = { id := db.cart_items.length
                      user_id := uid
                      product_id := pid
                      quantity := q
                      created_at := now
                      updated_at := now } := by simpa using h1
        rw [this]
        exact hq
  · -- removeCartItem
    intro db uid pid hinv
    exact ⟨hinv.1, hinv.2.1,
      fun cc hcc => hinv.2.2.1 cc (List.mem_of_mem_filter hcc), hinv.2.2.2⟩
  · -- clearCart
    intro db uid hinv
    exact ⟨hinv.1, hinv.2.1,
      fun cc hcc => hinv.2.2.1 cc (List.mem_of_mem_filter hcc), hinv.2.2.2⟩
  · -- createProduct
    intro db c now db2 h hinv
    obtain ⟨hp, hu, hc2, hoi⟩ := hinv
    obtain ⟨hv, hdb2⟩ := createProduct_ok_elim h
    simp only [validProductCreate, Bool.and_eq_true, decide_eq_true_eq] at hv
    obtain ⟨⟨⟨hprice, -⟩, hstock⟩, -⟩ := hv
    subst hdb2
    refine ⟨?_, ?_, hc2, hoi⟩
    · intro x hx
      rcases List.mem_append.mp hx with h1 | h1
      · exact hp x h1
      · have : x = productOfCreate c (nextProductId db) now := by simpa using h1
        rw [this]
        exact ⟨hstock, hprice⟩
    · show (db.products ++ [productOfCreate c (nextProductId db) now]).Pairwise _
      rw [List.pairwise_append]
      refine ⟨hu, List.pairwise_singleton _ _, ?_⟩
      intro a ha b hb
      have hb2 : b = productOfCreate c (nextProductId db) now := by simpa using hb
      have hle : a.id ≤ (db.products.map (fun p => p.id)).foldr max 0 :=
        le_foldr_max (List.mem_map_of_mem _ ha)
      rw [hb2]
      show a.id ≠ nextProductId db
      rw [nextProductId]
      omega
  · -- updateProduct
    intro db pid u now db2 h hinv
    obtain ⟨hp, hu, hc2, hoi⟩ := hinv
    obtain ⟨hv, hdb2⟩ := updateProduct_ok_elim h
    simp only [validProductUpdate, Bool.and_eq_true] at hv
    obtain ⟨⟨⟨hvp, -⟩, hvs⟩, -⟩ := hv
    subst hdb2
    refine ⟨?_, ?_, hc2, hoi⟩
    · intro x hx
      rcases List.mem_map.mp hx with ⟨y, hy, rfl⟩
      by_cases hk : (y.id == pid) = true
      · rw [if_pos hk]
        constructor
        · show (0 : Int) ≤ u.stock_quantity.getD y.stock_quantity
          cases hus : u.stock_quantity with
          | none => simpa using (hp y hy).1
          | some v =>
            rw [hus] at hvs
            simpa using hvs
        · show (0 : Int) ≤ u.price.getD y.price
          cases hup : u.price with
          | none => simpa using (hp y hy).2
          | some v =>
            rw [hup] at hvp
            simpa using hvp
      · rw [if_neg hk]
        exact hp y hy
    · show (db.products.map (fun p =>
        if p.id == pid then applyProductUpdate p u now else p)).Pairwise _
      rw [List.pairwise_map]
      refine hu.imp (fun hab => ?_)
      rw [updAdj_id, updAdj_id]
      exact hab

/-- Witness for `product_bounds_invariant`: the §8 example state is
well-formed, so its products satisfy the bounds. -/
theorem product_bounds_invariant_witness : productInv exDB :=
  product_bounds_invariant.1 exDB
    (by unfold DBInv productInv productIdsUnique cartQtyInv orderItemQtyInv
        decide)

theorem cartAdj_user (uid pid : Nat) (q : Int) (now : Nat) (c : CartItem) :
    (if c.user_id == uid && c.product_id == pid then
      { c with quantity := c.quantity + q, updated_at := now }
    else c).user_id = c.user_id := by
  by_cases h : (c.user_id == uid && c.product_id == pid) = true <;> simp [h]

theorem cartAdj_product (uid pid : Nat) (q : Int) (now : Nat) (c : CartItem) :
    (if c.user_id == uid && c.product_id == pid then
      { c with quantity := c.quantity + q, updated_at := now }
    else c).product_id = c.product_id := by
  by_cases h : (c.user_id == uid && c.product_id == pid) = true <;> simp [h]

/-- Claim C7: there is always at most one CartItem per (user, product) —
`add_or_update` upserts instead of inserting a duplicate — and every cart
line's quantity stays at least 1; the other cart-touching operations
preserve both as well. -/
theorem cart_upsert_unique :
    (∀ (db : DB) (uid pid : Nat) (q : Int) (now : Nat) (db2 : DB),
      1 ≤ q → add_or_update db uid pid q now = .ok db2 →
      cartKeyUnique db → cartQtyInv db →
      cartKeyUnique db2 ∧ cartQtyInv db2) ∧
    (∀ (db : DB) (uid pid : Nat), cartKeyUnique db →
      cartKeyUnique (removeCartItem db uid pid)) ∧
    (∀ (db : DB) (uid : Nat), cartKeyUnique db →
      cartKeyUnique (clearCart db uid)) ∧
    (∀ (db : DB) (uid aid : Nat) (pm : PaymentMethod) (notes : Option String)
       (sc tx dc : Int) (num : String) (now : Nat) (db2 : DB) (o : Order),
      checkout db uid aid pm notes sc tx dc num now = .ok (db2, o) →
      cartKeyUnique db → cartKeyUnique db2) ∧
    (∀ (db : DB) (oid : Nat) (dst : OrderStatus) (now : Nat) (db2 : DB),
      transition_status db oid dst now = .ok db2 →
      db2.cart_items = db.cart_items) ∧
    (∀ (db : DB) (oid : Nat) (pst : PaymentStatus) (now : Nat) (db2 : DB),
      update_payment_status db oid pst now = .ok db2 →
      db2.cart_items = db.cart_items) := by
  refine ⟨?_, ?_, ?_, ?_, ?_, ?_⟩
  · intro db uid pid q now db2 hq h hk hc
    rcases add_or_update_ok_elim h with ⟨c0, -, hdb2⟩ | ⟨hfind, hdb2⟩ <;> subst hdb2
    · constructor
      · show (db.cart_items.map _).Pairwise _
        rw [List.pairwise_map]
        refine hk.imp (fun hab => ?_)
        rw [cartAdj_user, cartAdj_product, cartAdj_user, cartAdj_product]
        exact hab
      · intro cc hcc
        rcases List.mem_map.mp hcc with ⟨y, hy, rfl⟩
        by_cases hcase : (y.user_id == uid && y.product_id == pid) = true
        · rw [if_pos hcase]
          have := hc y hy
          show 1 ≤ y.quantity + q
          omega
        · rw [if_neg hcase]
          exact hc y hy
    · constructor
      · show (db.cart_items ++ [_]).Pairwise _
        rw [List.pairwise_append]
        refine ⟨hk, List.pairwise_singleton _ _, ?_⟩
        intro a ha b hb
        have hb2 : b = { id := db.cart_items.length
                         user_id := uid
                         product_id := pid
                         quantity := q
                         created_at := now
                         updated_at := now } := by simpa using hb
        have hpred := List.find?_eq_none.mp hfind a ha
        rw [hb2]
        intro hcon
        apply hpred
        simp only [Bool.and_eq_true, beq_iff_eq]
        exact hcon
      · intro cc hcc
        rcases List.mem_append.mp hcc with h1 | h1
        · exact hc cc h1
        · have : cc = { id := db.cart_items.length
                        user_id := uid
                        product_id := pid
                        quantity := q
                        created_at := now
                        updated_at := now } := by simpa using h1
          rw [this]
          exact hq
  · intro db uid pid hk
    exact hk.filter _
  · intro db uid hk
    exact hk.filter _
  · intro db uid aid pm notes sc tx dc num now db2 o h hk
    obtain ⟨ps2, items, sub, hrec, hdb2, ho⟩ := checkout_ok_elim h
    subst hdb2
    exact hk.filter _
  · intro db oid dst now db2 h
    obtain ⟨o, hf, hal, hdb2⟩ := transition_ok_elim h
    rw [hdb2]
  · intro db oid pst now db2 h
    rw [payment_ok_elim h]

/-- Witness for `cart_upsert_unique`: upserting into the §8 example cart
keeps the (user, product) key unique and the quantity bound. -/
theorem cart_upsert_unique_witness :
    cartKeyUnique exDBup ∧ cartQtyInv exDBup :=
  cart_upsert_unique.1 exDB 1 1 3 9 exDBup (by norm_num) (by rfl)
    (by unfold cartKeyUnique
        decide)
    (by unfold cartQtyInv
        decide)

/-- Claim C8: every OrderItem is created by `checkout` with
`total_price = unit_price × quantity`, and order lines are immutable
afterwards: no operation (product updates included) ever rewrites a stored
OrderItem, so its frozen values are never recomputed from the current
Product. -/
theorem order_items_frozen :
    (∀ (db : DB) (uid aid : Nat) (pm : PaymentMethod) (notes : Option String)
       (sc tx dc : Int) (num : String) (now : Nat) (db2 : DB) (o : Order),
      checkout db uid aid pm notes sc tx dc num now = .ok (db2, o) →
      ∃ items, db2.order_items = db.order_items ++ items ∧
        ∀ i ∈ items, i.total_price = i.unit_price * i.quantity) ∧
    (∀ (db : DB) (pid : Nat) (u : ProductUpdate) (now : Nat) (db2 : DB),
      updateProduct db pid u now = .ok db2 →
      db2.order_items = db.order_items) ∧
    (∀ (db : DB) (c : ProductCreate) (now : Nat) (db2 : DB),
      createProduct db c now = .ok db2 → db2.order_items = db.order_items) ∧
    (∀ (db : DB) (oid : Nat) (dst : OrderStatus) (now : Nat) (db2 : DB),
      transition_status db oid dst now = .ok db2 →
      db2.order_items = db.order_items) ∧
    (∀ (db : DB) (oid : Nat) (pst : PaymentStatus) (now : Nat) (db2 : DB),
      update_payment_status db oid pst now = .ok db2 →
      db2.order_items = db.order_items) ∧
    (∀ (db : DB) (uid pid : Nat) (q : Int) (now : Nat) (db2 : DB),
      add_or_update db uid pid q now = .ok db2 →
      db2.order_items = db.order_items) := by
  refine ⟨?_, ?_, ?_, ?_, ?_, ?_⟩
  · intro db uid aid pm notes sc tx dc num now db2 o h
    obtain ⟨ps2, items, sub, hrec, hdb2, ho⟩ := checkout_ok_elim h
    obtain ⟨-, -, hfields⟩ := processLines_ok_spec _ _ _ _ _ _ hrec
    subst hdb2
    exact ⟨items, rfl, fun i hi => (hfields i hi).1⟩
  · intro db pid u now db2 h
    rw [(updateProduct_ok_elim h).2]
  · intro db c now db2 h
    rw [(createProduct_ok_elim h).2]
  · intro db oid dst now db2 h
    obtain ⟨o, hf, hal, hdb2⟩ := transition_ok_elim h
    rw [hdb2]
  · intro db oid pst now db2 h
    rw [payment_ok_elim h]
  · intro db uid pid q now db2 h
    rcases add_or_update_ok_elim h with ⟨c0, -, hdb2⟩ | ⟨-, hdb2⟩ <;> rw [hdb2]

/-- Witness for `order_items_frozen`: the §8 example checkout's order lines
satisfy the frozen-price identity. -/
theorem order_items_frozen_witness :
    ∃ items, exDB2.order_items = exDB.order_items ++ items ∧
      ∀ i ∈ items, i.total_price = i.unit_price * i.quantity :=
  order_items_frozen.1 exDB 1 1 PaymentMethod.cod none 1000 500 0 "ORD-1" 5
    exDB2 exOrder (by rfl)

theorem cart_filter_other (l : List CartItem) (u1 u2 : Nat) (hne : u1 ≠ u2) :
    (l.filter (fun c => c.user_id != u1)).filter (fun c => c.user_id == u2) =
      l.filter (fun c => c.user_id == u2) := by
  induction l with
  | nil => rfl
  | cons c l ih =>
    by_cases h2 : c.user_id = u2
    · have h1 : (c.user_id != u1) = true := by
        simpa [h2] using hne.symm
      have hq : (c.user_id == u2) = true := by simp [h2]
      simp only [List.filter_cons, h1, hq, if_pos, ih]
    · by_cases h1 : c.user_id = u1
      · have hb1 : (c.user_id != u1) = false := by simp [h1]
        have hb2 : (c.user_id == u2) = false := by simp [h2]
        simp only [List.filter_cons, hb1, hb2, Bool.false_eq_true, if_false, ih]
      · have hb1 : (c.user_id != u1) = true := by simp [h1]
        have hb2 : (c.user_id == u2) = false := by simp [h2]
        simp only [List.filter_cons, hb1, if_pos, hb2, Bool.false_eq_true,
          if_false, ih]

/-- Claim C4: when a product has exactly one unit left and two users each
hold a cart line requesting one unit of it, the serialization the spec
demands gives: the checkout that runs first succeeds leaving stock 0, and
the other then fails with `OutOfStock` (concurrency is modelled by the two
serial orders, which this theorem covers symmetrically). -/
theorem concurrent_last_unit (db : DB) (u1 u2 a1 a2 pid : Nat) (p : Product)
    (c1 c2 : CartItem) (pm1 pm2 : PaymentMethod) (n1 n2 : Option String)
    (sc1 tx1 dc1 sc2 tx2 dc2 : Int) (num1 num2 : String) (t1 t2 : Nat)
    (hp : findProduct db pid = some p) (hstock : p.stock_quantity = 1)
    (hact : p.is_active = true)
    (hl1 : userCartLines db u1 = [c1]) (hc1 : c1.product_id = pid)
    (hq1 : c1.quantity = 1)
    (hl2 : userCartLines db u2 = [c2]) (hc2 : c2.product_id = pid)
    (hq2 : c2.quantity = 1)
    (ha1 : hasUserAddress db u1 a1 = true) (ha2 : hasUserAddress db u2 a2 = true)
    (hne : u1 ≠ u2) :
    ∃ db1 o1,
      checkout db u1 a1 pm1 n1 sc1 tx1 dc1 num1 t1 = .ok (db1, o1) ∧
      (findProduct db1 pid).map Product.stock_quantity = some 0 ∧
      checkout db1 u2 a2 pm2 n2 sc2 tx2 dc2 num2 t2 =
        .error (.OutOfStock pid 1 0) := by
  have hp' : db.products.find? (fun y => y.id == pid) = some p := hp
  have hpid : p.id = pid := by simpa using List.find?_some hp'
  have hfind1 : db.products.find? (fun y => y.id == c1.product_id) = some p := by
    rw [hc1]
    exact hp'
  have hpc : (p.id == c1.product_id) = true := by simp [hpid, hc1]
  have hpl1 : processLines db.orders.length db.products [c1] = .ok
      (addStock db.products c1.product_id (-c1.quantity),
       [{ id := 0
          order_id := db.orders.length
          product_id := c1.product_id
          quantity := c1.quantity
          unit_price := p.price
          total_price := p.price * c1.quantity
          product_snapshot := productSnapshot p }],
       p.price * c1.quantity + 0) := by
    simp [processLines, hfind1, hact, hstock, hq1]
  cases hco : checkout db u1 a1 pm1 n1 sc1 tx1 dc1 num1 t1 with
  | error e =>
    exfalso
    simp [checkout, hl1, ha1, hpl1] at hco
  | ok pr =>
    obtain ⟨db1, o1⟩ := pr
    obtain ⟨ps2, items, sub, hrec, hdb1, ho1⟩ := checkout_ok_elim hco
    rw [hl1, hpl1] at hrec
    simp only [Except.ok.injEq, Prod.mk.injEq] at hrec
    obtain ⟨hps2, hitems, hsub⟩ := hrec
    subst hdb1
    have hfind2 : ps2.find? (fun y => y.id == c2.product_id) =
        some { p with stock_quantity := p.stock_quantity + -c1.quantity } := by
      rw [← hps2, addStock, hc2,
        find?_map_key _ Product.id (stockAdj_id c1.product_id (-c1.quantity))
          pid db.products, hp']
      simp only [Option.map_some']
      rw [if_pos hpc]
    refine ⟨_, o1, rfl, ?_, ?_⟩
    · show ((ps2.find? (fun y => y.id == pid)).map Product.stock_quantity) =
        some 0
      rw [← hps2, addStock,
        find?_map_key _ Product.id (stockAdj_id c1.product_id (-c1.quantity))
          pid db.products, hp']
      simp only [Option.map_some']
      rw [if_pos hpc]
      show some (p.stock_quantity + -c1.quantity) = some 0
      rw [hstock, hq1]
      norm_num
    · have hl2b : userCartLines { db with
          products := ps2,
          cart_items := db.cart_items.filter (fun c => c.user_id != u1),
          orders := db.orders ++ [o1],
          order_items := db.order_items ++ items } u2 = [c2] := by
        show (db.cart_items.filter (fun c => c.user_id != u1)).filter
            (fun c => c.user_id == u2) = [c2]
        rw [cart_filter_other db.cart_items u1 u2 hne]
        exact hl2
      have hpl2 : ∀ oid2, processLines oid2 ps2 [c2] =
          .error (.OutOfStock pid 1 0) := by
        intro oid2
        simp only [processLines, hfind2]
        norm_num [hact, hstock, hq1, hq2, hc2]
      have ha2b : ({ db with
          products := ps2,
          cart_items := db.cart_items.filter (fun c => c.user_id != u1),
          orders := db.orders ++ [o1],
          order_items := db.order_items ++ items } : DB).addresses.any
            (fun a => a.id == a2 && a.user_id == u2) = true := ha2
      simp [checkout, hasUserAddress, hl2b, ha2b, hpl2]

/-- Witness for `concurrent_last_unit` at the concrete one-unit state. -/
theorem concurrent_last_unit_witness :
    ∃ db1 o1,
      checkout exLastUnitDB 1 1 PaymentMethod.cod none 0 0 0 "A" 1 =
        .ok (db1, o1) ∧
      (findProduct db1 1).map Product.stock_quantity = some 0 ∧
      checkout db1 2 2 PaymentMethod.cod none 0 0 0 "B" 2 =
        .error (.OutOfStock 1 1 0) :=
  concurrent_last_unit exLastUnitDB 1 2 1 2 1
    { exProduct with stock_quantity := 1 }
    { exCart with quantity := 1 }
    { id := 2, user_id := 2, product_id := 1, quantity := 1,
      created_at := 0, updated_at := 0 }
    PaymentMethod.cod PaymentMethod.cod none none 0 0 0 0 0 0 "A" "B" 1 2
    (by decide) (by decide) (by decide) (by decide) (by decide) (by decide)
    (by decide) (by decide) (by decide) (by decide) (by decide) (by decide)

end Gadgetku
